import Mathlib

/-! The kubeless `post-go` example handler

Source: `examples/post-go/handler.go`

```go
// Handler returns the given data.
func Handler(event functions.Event, context functions.Context) (string, error) {
	logrus.Println(event)
	return event.Data, nil
}
```

The handler is embedded as a state-passing function over the state of the
ambient logging facility.  The two host types (`functions.Event`,
`functions.Context`) and the logging call (`logrus.Println`) come from
packages outside the repository, so they enter the development as parameters:
the event is its `Data` field together with host-defined fields of an arbitrary
type, the context is a value of an arbitrary type, and the logger is an
arbitrary transformer of its own state that hands nothing back to its caller
(the Go signature is `func Println(args ...interface{})`).

A Go call can also end in a panic instead of completing.  `Handler.call` is the
same two statements over a logging call that either completes or panics;
`Handler` is its restriction to logging calls that complete
(`Handler.call_completing`).
-/

set_option linter.unusedVariables false

namespace Kubeless

/-! ## Data model -/

/-- Go `error` value; `none` is `nil`. -/
abbrev GoError := Option String

/-- The host type `functions.Event`: the `Data` field read by the handler and
the remaining host-defined fields, kept as one value of an arbitrary type. -/
structure Event (M : Type) where
  Data : String
  Extra : M
deriving DecidableEq, Repr

/-- The ambient logging facility as seen by the handler.  `Println` receives
the logged value and the facility's state and yields the facility's new state;
like the Go function it has no return value. -/
structure Logger (V W : Type) where
  Println : V → W → W

/-! ## The handler -/

/-- `Handler` of `handler.go`: line 10 logs the received event, line 11 returns
`event.Data` and a nil error.  The second component is the state of the logging
facility after the call. -/
def Handler {M C W : Type} (logrus : Logger (Event M) W)
    (event : Event M) (context : C) (world : W) : (String × GoError) × W :=
  let world1 := logrus.Println event world
  ((event.Data, none), world1)

/-- The logging state after a sequence of invocations, oldest first. -/
def invokeAll {M C W : Type} (logrus : Logger (Event M) W)
    (calls : List (Event M × C)) (world : W) : W :=
  calls.foldl (fun w call => (Handler logrus call.1 call.2 w).2) world

/-! ## Statement-level execution of one call -/

/-- Position of one activation of `Handler`: before line 10, before line 11,
after the return. -/
inductive Pc where
  | line10
  | line11
  | returned
deriving DecidableEq, Repr

/-- One activation of `Handler`: its two parameters (Go passes both by
value, so every activation owns its copies), its position and the returned
pair once it has returned. -/
structure Activation (M C : Type) where
  event : Event M
  context : C
  pc : Pc
  result : Option (String × GoError)

/-- A fresh activation, as the host creates it for one call. -/
def Activation.start {M C : Type} (event : Event M) (context : C) : Activation M C :=
  Activation.mk event context Pc.line10 none

/-- Execute the next statement of an activation against the logging state. -/
def Activation.step {M C W : Type} (logrus : Logger (Event M) W)
    (a : Activation M C) (world : W) : Activation M C × W :=
  match a.pc with
  | Pc.line10 => (Activation.mk a.event a.context Pc.line11 a.result, logrus.Println a.event world)
  | Pc.line11 => (Activation.mk a.event a.context Pc.returned (some (a.event.Data, none)), world)
  | Pc.returned => (a, world)

/-- Run one activation to its return: both statements in order. -/
def Activation.exec {M C W : Type} (logrus : Logger (Event M) W)
    (a : Activation M C) (world : W) : Activation M C × W :=
  let s1 := Activation.step logrus a world
  Activation.step logrus s1.1 s1.2

/-! ## Two calls running concurrently -/

/-- Two activations sharing the logging facility. -/
structure Concurrent (M C W : Type) where
  first : Activation M C
  second : Activation M C
  world : W

/-- The scheduler lets one of the two activations execute its next statement:
`true` picks the first, `false` the second. -/
def Concurrent.step {M C W : Type} (logrus : Logger (Event M) W)
    (s : Concurrent M C W) (pick : Bool) : Concurrent M C W :=
  match pick with
  | true =>
    let r := Activation.step logrus s.first s.world
    Concurrent.mk r.1 s.second r.2
  | false =>
    let r := Activation.step logrus s.second s.world
    Concurrent.mk s.first r.1 r.2

/-- Run a schedule, earliest pick first. -/
def Concurrent.run {M C W : Type} (logrus : Logger (Event M) W)
    (s : Concurrent M C W) (sched : List Bool) : Concurrent M C W :=
  sched.foldl (Concurrent.step logrus) s

/-- The host starts two calls at once. -/
def Concurrent.start {M C W : Type} (e1 e2 : Event M) (c1 c2 : C) (world : W) :
    Concurrent M C W :=
  Concurrent.mk (Activation.start e1 c1) (Activation.start e2 c2) world

/-! ## A logging facility with an explicit record list and a fallible sink -/

/-- State of the logging facility: every record emitted so far (oldest
first), the records the sink accepted, and the number of write failures, which
the logger reports on its own error stream and never to its caller. -/
structure LogState (R : Type) where
  emitted : List R
  delivered : List R
  failures : Nat
deriving DecidableEq, Repr

/-- Modelled from the spec: the logging library is not part of the repository.
`render` is the host-configured representation of a logged value and `sink`
tells whether the write of a record succeeds, given what was emitted before.
One `Println` emits one record.  This logger covers the sinks whose writes
complete, with success or with a reported error; the library, not the handler,
counts a reported error and drops it.  A sink whose write panics is covered by
`faultyLogger`. -/
def sinkLogger {V R : Type} (render : V → R) (sink : List R → R → Bool) :
    Logger V (LogState R) where
  Println v s :=
    let r := render v
    match sink s.emitted r with
    | true => LogState.mk (s.emitted ++ [r]) (s.delivered ++ [r]) s.failures
    | false => LogState.mk (s.emitted ++ [r]) s.delivered (s.failures + 1)

/-- A sink that is unavailable: every write fails. -/
def sinkDown {R : Type} : List R → R → Bool := fun _ _ => false

/-- The empty logging state. -/
def LogState.empty {R : Type} : LogState R := LogState.mk [] [] 0

/-- The activation of a call on `event` and `context` after it has executed
`n` statements of its own. -/
def Activation.after {M C : Type} (event : Event M) (context : C) : Nat → Activation M C
  | 0 => Activation.mk event context Pc.line10 none
  | 1 => Activation.mk event context Pc.line11 none
  | _ + 2 => Activation.mk event context Pc.returned (some (event.Data, none))

/-! ## A logging call that may panic -/

/-- The logging facility with the second way a Go call can end: `Println`
either completes with the facility's new state (`Except.ok`) or panics with a
value of type `P` (`Except.error`). -/
structure PanickingLogger (V W P : Type) where
  Println : V → W → Except P W

/-- `Handler` of `handler.go` over a logging call that may panic.  Line 10 has
no `defer` and no `recover` around it, so a panic of `logrus.Println` ends the
call without a returned pair and reaches the caller; when the logging call
completes, line 11 returns `event.Data` and a nil error. -/
def Handler.call {M C W P : Type} (logrus : PanickingLogger (Event M) W P)
    (event : Event M) (context : C) (world : W) : Except P ((String × GoError) × W) :=
  match logrus.Println event world with
  | Except.error p => Except.error p
  | Except.ok world1 => Except.ok ((event.Data, none), world1)

/-- A logger whose call always completes, seen as one that may panic. -/
def Logger.completing {V W P : Type} (logrus : Logger V W) : PanickingLogger V W P where
  Println v w := Except.ok (logrus.Println v w)

/-- What one write to the sink does: it succeeds, it returns an error to the
logging library, or it panics (a sink that is absent, or whose write panics). -/
inductive SinkOutcome where
  | written
  | failed
  | panicked (reason : String)
deriving DecidableEq, Repr

/-- Modelled from the spec: the logging library is not part of the repository.
The spec names the sink that is "forced to fail" or "unavailable" and "a
propagated error from constructing or emitting the log line".  A write that
succeeds delivers the record; a write error returned by the sink is counted by
the library and dropped; a panic of the sink is not caught by the library and
leaves `Println` as a panic. -/
def faultyLogger {V R : Type} (render : V → R) (sink : List R → R → SinkOutcome) :
    PanickingLogger V (LogState R) String where
  Println v s :=
    let r := render v
    match sink s.emitted r with
    | SinkOutcome.written =>
      Except.ok (LogState.mk (s.emitted ++ [r]) (s.delivered ++ [r]) s.failures)
    | SinkOutcome.failed =>
      Except.ok (LogState.mk (s.emitted ++ [r]) s.delivered (s.failures + 1))
    | SinkOutcome.panicked reason => Except.error reason

/-- A sink that is absent: every write panics. -/
def sinkAbsent {R : Type} : List R → R → SinkOutcome :=
  fun _ _ => SinkOutcome.panicked "nil sink"

/-! ## Auxiliary facts -/

/-- Over a logging call that always completes, `Handler.call` is `Handler`. -/
theorem Handler.call_completing {M C W P : Type} (logrus : Logger (Event M) W)
    (e : Event M) (c : C) (w : W) :
    Handler.call (Logger.completing logrus : PanickingLogger (Event M) W P) e c w
      = Except.ok (Handler logrus e c w) :=
  rfl

/-- A sink that never panics makes `faultyLogger` the completing `sinkLogger`. -/
theorem faultyLogger_of_reporting {V R : Type} (render : V → R) (ok : List R → R → Bool)
    (v : V) (s : LogState R) :
    (faultyLogger render
        (fun l r => if ok l r then SinkOutcome.written else SinkOutcome.failed)).Println v s
      = Except.ok ((sinkLogger render ok).Println v s) := by
  simp only [faultyLogger, sinkLogger]
  cases ok s.emitted (render v) <;> rfl

/-- One statement takes the activation after `n` statements to the one after
`n + 1`, whatever the logger does. -/
theorem Activation.step_after {M C W : Type} (logrus : Logger (Event M) W)
    (e : Event M) (c : C) (n : Nat) (w : W) :
    (Activation.step logrus (Activation.after e c n) w).1 = Activation.after e c (n + 1) := by
  match n with
  | 0 => rfl
  | 1 => rfl
  | _ + 2 => rfl

/-- Running both statements of a fresh activation is the call itself. -/
theorem Activation.exec_start {M C W : Type} (logrus : Logger (Event M) W)
    (e : Event M) (c : C) (w : W) :
    Activation.exec logrus (Activation.start e c) w
      = (Activation.mk e c Pc.returned (some (Handler logrus e c w).1), (Handler logrus e c w).2) :=
  rfl

/-- Under any schedule each activation is where its own number of picks puts
it; the other activation and the logger have no influence on it. -/
theorem Concurrent.run_after {M C W : Type} (logrus : Logger (Event M) W)
    (e1 e2 : Event M) (c1 c2 : C) (sched : List Bool) :
    ∀ (n1 n2 : Nat) (w : W),
      (Concurrent.run logrus
          (Concurrent.mk (Activation.after e1 c1 n1) (Activation.after e2 c2 n2) w) sched).first
        = Activation.after e1 c1 (n1 + sched.count true) ∧
      (Concurrent.run logrus
          (Concurrent.mk (Activation.after e1 c1 n1) (Activation.after e2 c2 n2) w) sched).second
        = Activation.after e2 c2 (n2 + sched.count false) := by
  induction sched with
  | nil => intro n1 n2 w; exact ⟨rfl, rfl⟩
  | cons b t ih =>
    intro n1 n2 w
    cases b with
    | true =>
      have hs : Concurrent.step logrus
          (Concurrent.mk (Activation.after e1 c1 n1) (Activation.after e2 c2 n2) w) true
          = Concurrent.mk (Activation.after e1 c1 (n1 + 1)) (Activation.after e2 c2 n2)
              (Activation.step logrus (Activation.after e1 c1 n1) w).2 := by
        simp only [Concurrent.step, Activation.step_after]
      have h := ih (n1 + 1) n2 (Activation.step logrus (Activation.after e1 c1 n1) w).2
      simp only [Concurrent.run, List.foldl_cons, hs] at h ⊢
      refine ⟨?_, ?_⟩
      · rw [h.1]; congr 1; simp only [List.count_cons_self]; omega
      · rw [h.2]; simp [List.count_cons]
    | false =>
      have hs : Concurrent.step logrus
          (Concurrent.mk (Activation.after e1 c1 n1) (Activation.after e2 c2 n2) w) false
          = Concurrent.mk (Activation.after e1 c1 n1) (Activation.after e2 c2 (n2 + 1))
              (Activation.step logrus (Activation.after e2 c2 n2) w).2 := by
        simp only [Concurrent.step, Activation.step_after]
      have h := ih n1 (n2 + 1) (Activation.step logrus (Activation.after e2 c2 n2) w).2
      simp only [Concurrent.run, List.foldl_cons, hs] at h ⊢
      refine ⟨?_, ?_⟩
      · rw [h.1]; simp [List.count_cons]
      · rw [h.2]; congr 1; simp only [List.count_cons_self]; omega

/-- An activation that has executed at least two statements has returned its
own data and a nil error. -/
theorem Activation.after_result_of_le {M C : Type} (e : Event M) (c : C) (n : Nat)
    (h : 2 ≤ n) : (Activation.after e c n).result = some (e.Data, none) := by
  match n, h with
  | _ + 2, _ => rfl

/-- At every point an activation holds its own event and context, and its
result is either still absent or its own data with a nil error. -/
theorem Activation.after_own {M C : Type} (e : Event M) (c : C) (n : Nat) :
    (Activation.after e c n).event = e ∧ (Activation.after e c n).context = c ∧
      ((Activation.after e c n).result = none ∨
        (Activation.after e c n).result = some (e.Data, none)) := by
  match n with
  | 0 => exact ⟨rfl, rfl, Or.inl rfl⟩
  | 1 => exact ⟨rfl, rfl, Or.inl rfl⟩
  | _ + 2 => exact ⟨rfl, rfl, Or.inr rfl⟩

/-! ## The invocation contract -/

/-- C1: identity.  For every string `s`, every host-defined rest of the event,
every context and every logger and logging state, `Handler` on an event whose
`Data` is `s` returns the pair `(s, nil)`; in particular `"hello"` gives
`("hello", nil)` and the empty string gives `("", nil)`. -/
theorem handler_identity {M C W : Type} (logrus : Logger (Event M) W)
    (s : String) (m : M) (c : C) (w : W) :
    (Handler logrus (Event.mk s m) c w).1 = (s, none) ∧
      (Handler logrus (Event.mk "hello" m) c w).1 = ("hello", none) ∧
      (Handler logrus (Event.mk "" m) c w).1 = ("", none) :=
  ⟨rfl, rfl, rfl⟩

/-- C2: no failure path.  For every event, whatever its `Data` and its other
fields, every context and every logger and logging state, the error component
returned by `Handler` is nil. -/
theorem handler_error_nil {M C W : Type} (logrus : Logger (Event M) W)
    (e : Event M) (c : C) (w : W) :
    (Handler logrus e c w).1.2 = none :=
  rfl

/-- C3, as the claim states it, fails: with a sink that is absent the logging
call panics, `Handler` has no `recover`, and the call on `Event{Data: "hello"}`
ends in that panic; it returns no pair, so not `("hello", nil)`, and it is not
true that `Handler` returns `(event.Data, nil)` under every behaviour of the
sink. -/
theorem handler_sink_panic_escapes :
    Handler.call (faultyLogger id sinkAbsent) (Event.mk "hello" ()) () LogState.empty
        = Except.error "nil sink" ∧
      (¬ ∃ w1 : LogState (Event Unit),
        Handler.call (faultyLogger id sinkAbsent) (Event.mk "hello" ()) () LogState.empty
          = Except.ok (("hello", none), w1)) ∧
      ¬ ∀ (sink : List (Event Unit) → Event Unit → SinkOutcome),
        ∃ w1 : LogState (Event Unit),
          Handler.call (faultyLogger id sink) (Event.mk "hello" ()) () LogState.empty
            = Except.ok (("hello", none), w1) := by
  have hp : Handler.call (faultyLogger id sinkAbsent) (Event.mk "hello" ()) ()
      (LogState.empty : LogState (Event Unit)) = Except.error "nil sink" := rfl
  refine ⟨hp, ?_, ?_⟩
  · rintro ⟨w1, h⟩
    rw [hp] at h
    cases h
  · intro hall
    obtain ⟨w1, h⟩ := hall sinkAbsent
    rw [hp] at h
    cases h

/-- C3, amended: the outcome of `Handler` is the outcome of the logging call
with `(event.Data, nil)` as the returned pair.  For every event, context and
logging state: when the sink accepts the write, and when the sink returns a
write error (the logging library counts it in its own state and delivers
nothing), `Handler` returns `(event.Data, nil)`, so a reported sink failure
changes neither the returned string nor the returned error; when the logging
call panics, `Handler` returns no pair and the panic reaches the caller. -/
theorem handler_result_follows_logging_call {M C W P R : Type}
    (logrus : PanickingLogger (Event M) W P) (render : Event M → R)
    (sink : List R → R → SinkOutcome) (e : Event M) (c : C) (w : W) (s : LogState R) :
    Handler.call logrus e c w
        = (logrus.Println e w).map (fun w1 => ((e.Data, (none : GoError)), w1)) ∧
      Handler.call (faultyLogger render sink) e c s
        = (match sink s.emitted (render e) with
          | SinkOutcome.written =>
            Except.ok ((e.Data, none),
              LogState.mk (s.emitted ++ [render e]) (s.delivered ++ [render e]) s.failures)
          | SinkOutcome.failed =>
            Except.ok ((e.Data, none),
              LogState.mk (s.emitted ++ [render e]) s.delivered (s.failures + 1))
          | SinkOutcome.panicked reason => Except.error reason) := by
  refine ⟨?_, ?_⟩
  · unfold Handler.call
    cases logrus.Println e w <;> rfl
  · simp only [Handler.call, faultyLogger]
    cases sink s.emitted (render e) <;> rfl

/-- C4: exactly one unconditional emission.  The logging effect of one call of
`Handler` is one `Println` of the whole received event on the prior logging
state.  With the log an explicit list of emitted records, whether the sink
accepts the write or not, the call turns the prior list into the prior list
followed by exactly one record, the representation of the whole received event
(with the identity representation, the event itself with all its fields); the
earlier records are unchanged, and the record is already in the list after
line 10, when no result has been returned yet. -/
theorem handler_emits_exactly_one_record {M C R : Type} (render : Event M → R)
    (sink : List R → R → Bool) (sinkE : List (Event M) → Event M → Bool)
    (e : Event M) (c : C) (s : LogState R) (t : LogState (Event M)) :
    (Handler (sinkLogger render sink) e c s).2 = (sinkLogger render sink).Println e s ∧
      (Handler (sinkLogger render sink) e c s).2.emitted = s.emitted ++ [render e] ∧
      (Handler (sinkLogger render sink) e c s).2.emitted.length = s.emitted.length + 1 ∧
      ((Handler (sinkLogger render sink) e c s).2.emitted.take s.emitted.length) = s.emitted ∧
      (Handler (sinkLogger id sinkE) e c t).2.emitted = t.emitted ++ [e] ∧
      (Activation.step (sinkLogger render sink) (Activation.start e c) s).2.emitted
        = s.emitted ++ [render e] ∧
      (Activation.step (sinkLogger render sink) (Activation.start e c) s).1.result = none := by
  have h : ∀ (Q : Type) (r : Event M → Q) (k : List Q → Q → Bool) (u : LogState Q),
      ((sinkLogger r k).Println e u).emitted = u.emitted ++ [r e] := by
    intro Q r k u
    simp only [sinkLogger]
    cases k u.emitted (r e) <;> rfl
  refine ⟨rfl, h R render sink s, ?_, ?_, h (Event M) id sinkE t, h R render sink s, rfl⟩
  · show ((sinkLogger render sink).Println e s).emitted.length = s.emitted.length + 1
    rw [h R render sink s]; simp
  · show ((sinkLogger render sink).Println e s).emitted.take s.emitted.length = s.emitted
    rw [h R render sink s]; simp

/-- C5: context independence.  For every event and every two contexts
`Handler` returns the same pair; the whole outcome of the call, the logging
state included, is the same. -/
theorem handler_context_independent {M C W : Type} (logrus : Logger (Event M) W)
    (e : Event M) (c1 c2 : C) (w : W) :
    (Handler logrus e c1 w).1 = (Handler logrus e c2 w).1 ∧
      Handler logrus e c1 w = Handler logrus e c2 w :=
  ⟨rfl, rfl⟩

/-- C6: metadata opacity.  Two events with the same `Data`, differing
arbitrarily in their other fields, get the same returned pair from `Handler`,
and that pair is the common `Data`, unmodified, with a nil error. -/
theorem handler_metadata_opaque {M C W : Type} (logrus : Logger (Event M) W)
    (e1 e2 : Event M) (c : C) (w : W) (h : e1.Data = e2.Data) :
    (Handler logrus e1 c w).1 = (Handler logrus e2 c w).1 ∧
      (Handler logrus e1 c w).1 = (e1.Data, none) := by
  refine ⟨?_, rfl⟩
  show (e1.Data, (none : GoError)) = (e2.Data, none)
  rw [h]

/-- C6, instance: one event with a host-defined field present, one with it
absent, under a sink that is down. -/
theorem handler_metadata_opaque_witness :
    (Event.mk "x" (some 7)).Data = (Event.mk "x" (none : Option Nat)).Data ∧
      ((Handler (sinkLogger id sinkDown) (Event.mk "x" (some 7)) () LogState.empty).1
          = (Handler (sinkLogger id sinkDown) (Event.mk "x" (none : Option Nat)) ()
              LogState.empty).1 ∧
        (Handler (sinkLogger id sinkDown) (Event.mk "x" (some 7)) () LogState.empty).1
          = ((Event.mk "x" (some 7)).Data, none)) :=
  ⟨rfl, handler_metadata_opaque (sinkLogger id sinkDown) (Event.mk "x" (some 7))
    (Event.mk "x" none) () LogState.empty rfl⟩

/-- C7: no hidden state.  A second call with the same event, run on the
logging state the first call left behind, returns the same pair as the first;
the pair is the same from every prior logging state, and after any sequence of
earlier invocations. -/
theorem handler_idempotent {M C W : Type} (logrus : Logger (Event M) W)
    (e : Event M) (c : C) (w w2 : W) (calls : List (Event M × C)) :
    (Handler logrus e c (Handler logrus e c w).2).1 = (Handler logrus e c w).1 ∧
      (Handler logrus e c w2).1 = (Handler logrus e c w).1 ∧
      (Handler logrus e c (invokeAll logrus calls w)).1 = (Handler logrus e c w).1 :=
  ⟨rfl, rfl, rfl⟩

/-- C8: concurrent non-interference.  Two calls started together on events
whose `Data` are `"a"` and `"b"`, sharing the logging facility: under every
schedule that lets each call execute its two statements, the first call has
returned `("a", nil)` and the second `("b", nil)`; and at every point of the
schedule each call holds its own event and has either not returned yet or
returned its own data. -/
theorem handler_concurrent_noninterference {M C W : Type} (logrus : Logger (Event M) W)
    (m1 m2 : M) (c1 c2 : C) (w : W) (sched : List Bool)
    (h1 : 2 ≤ sched.count true) (h2 : 2 ≤ sched.count false) :
    (Concurrent.run logrus (Concurrent.start (Event.mk "a" m1) (Event.mk "b" m2) c1 c2 w)
        sched).first.result = some ("a", none) ∧
      (Concurrent.run logrus (Concurrent.start (Event.mk "a" m1) (Event.mk "b" m2) c1 c2 w)
        sched).second.result = some ("b", none) ∧
      ∀ k : Nat,
        ((Concurrent.run logrus (Concurrent.start (Event.mk "a" m1) (Event.mk "b" m2) c1 c2 w)
            (sched.take k)).first.event = Event.mk "a" m1 ∧
          ((Concurrent.run logrus (Concurrent.start (Event.mk "a" m1) (Event.mk "b" m2) c1 c2 w)
              (sched.take k)).first.result = none ∨
            (Concurrent.run logrus (Concurrent.start (Event.mk "a" m1) (Event.mk "b" m2) c1 c2 w)
              (sched.take k)).first.result = some ("a", none))) ∧
        ((Concurrent.run logrus (Concurrent.start (Event.mk "a" m1) (Event.mk "b" m2) c1 c2 w)
            (sched.take k)).second.event = Event.mk "b" m2 ∧
          ((Concurrent.run logrus (Concurrent.start (Event.mk "a" m1) (Event.mk "b" m2) c1 c2 w)
              (sched.take k)).second.result = none ∨
            (Concurrent.run logrus (Concurrent.start (Event.mk "a" m1) (Event.mk "b" m2) c1 c2 w)
              (sched.take k)).second.result = some ("b", none))) := by
  have key : ∀ l : List Bool,
      (Concurrent.run logrus (Concurrent.start (Event.mk "a" m1) (Event.mk "b" m2) c1 c2 w)
          l).first = Activation.after (Event.mk "a" m1) c1 (0 + l.count true) ∧
      (Concurrent.run logrus (Concurrent.start (Event.mk "a" m1) (Event.mk "b" m2) c1 c2 w)
          l).second = Activation.after (Event.mk "b" m2) c2 (0 + l.count false) :=
    fun l => Concurrent.run_after logrus (Event.mk "a" m1) (Event.mk "b" m2) c1 c2 l 0 0 w
  refine ⟨?_, ?_, ?_⟩
  · rw [(key sched).1]
    exact Activation.after_result_of_le _ _ _ (by omega)
  · rw [(key sched).2]
    exact Activation.after_result_of_le _ _ _ (by omega)
  · intro k
    rw [(key (sched.take k)).1, (key (sched.take k)).2]
    have ha := Activation.after_own (Event.mk "a" m1) c1 (0 + (sched.take k).count true)
    have hb := Activation.after_own (Event.mk "b" m2) c2 (0 + (sched.take k).count false)
    exact ⟨⟨ha.1, ha.2.2⟩, ⟨hb.1, hb.2.2⟩⟩

/-- C8, instance: the second call runs both its statements between the two
statements of the first, with the sink down. -/
theorem handler_concurrent_noninterference_witness :
    2 ≤ [true, false, false, true].count true ∧ 2 ≤ [true, false, false, true].count false ∧
      (Concurrent.run (sinkLogger id sinkDown)
          (Concurrent.start (Event.mk "a" 1) (Event.mk "b" 2) () () LogState.empty)
          [true, false, false, true]).first.result = some ("a", none) ∧
      (Concurrent.run (sinkLogger id sinkDown)
          (Concurrent.start (Event.mk "a" 1) (Event.mk "b" 2) () () LogState.empty)
          [true, false, false, true]).second.result = some ("b", none) :=
  ⟨by decide, by decide,
    (handler_concurrent_noninterference (sinkLogger id sinkDown) 1 2 () () LogState.empty
      [true, false, false, true] (by decide) (by decide)).1,
    (handler_concurrent_noninterference (sinkLogger id sinkDown) 1 2 () () LogState.empty
      [true, false, false, true] (by decide) (by decide)).2.1⟩

/-- C9: inputs are read-only.  With the event and the context held as
explicit state of the call, after the call both are what they were before it;
each statement leaves both unchanged wherever the call stands; the call returns
what `Handler` returns, and the only other state, the logging state, ends as
`Handler` leaves it: only line 10 changes it, the return statement and a
returned call leave it as it is. -/
theorem handler_inputs_read_only {M C W : Type} (logrus : Logger (Event M) W)
    (e : Event M) (c : C) (w : W) (a : Activation M C) :
    (Activation.exec logrus (Activation.start e c) w).1.event = e ∧
      (Activation.exec logrus (Activation.start e c) w).1.context = c ∧
      (Activation.exec logrus (Activation.start e c) w).1.result
        = some (Handler logrus e c w).1 ∧
      (Activation.exec logrus (Activation.start e c) w).2 = (Handler logrus e c w).2 ∧
      (Activation.step logrus a w).1.event = a.event ∧
      (Activation.step logrus a w).1.context = a.context ∧
      (Activation.step logrus (Activation.mk a.event a.context Pc.line11 a.result) w).2 = w ∧
      (Activation.step logrus (Activation.mk a.event a.context Pc.returned a.result) w).2
        = w := by
  refine ⟨rfl, rfl, rfl, rfl, ?_, ?_, rfl, rfl⟩
  · unfold Activation.step; cases a.pc <;> rfl
  · unfold Activation.step; cases a.pc <;> rfl

end Kubeless
